import Mathlib

/-!
Verification development for the Sentinel One Lite repository: a shallow
embedding of the data model (`sentinel/storage/models.py`), the FastAPI
route handlers (`sentinel/api/app.py`) and the settings objects
(`sentinel/config.py`), together with a model of the rule-matching /
alerting engine that the specification defines (the source never
implements it; those definitions are marked `Modelled from the spec`).
-/

namespace Sentinel

/-- A dynamically typed JSON-ish value, as a Python route handler sees it:
request payloads are plain `dict`s whose values are ints, strings, nulls,
or nested structures (nested structures are kept opaque as a tagged blob). -/
inductive Value where
  | vInt (n : Int)
  | vStr (s : String)
  | vNull
  | vBlob (tag : Nat)
  deriving DecidableEq, Repr

/-- `alerts` table row (`models.py`, class `Alert`).  Column values are kept
dynamically typed because `update_alert` writes raw payload values into the
ORM object with `setattr`, with no type or content validation. -/
structure Alert where
  id : Value
  rule_id : Value
  host_id : Value
  first_seen : Value
  last_seen : Value
  severity : Value
  title : Value
  description : Value
  status : Value
  artifact : Value
  deriving DecidableEq, Repr

/-- The attribute names of an `Alert` ORM row (its mapped columns). -/
def alertAttrs : List String :=
  ["id", "rule_id", "host_id", "first_seen", "last_seen",
   "severity", "title", "description", "status", "artifact"]

/-- The relationship attributes of the ORM `Alert` (`rule` and `host`,
declared with `relationship(..., back_populates=...)` in `models.py`).
Python `hasattr` is true for them, but assigning a plain JSON value to one
raises inside SQLAlchemy (it is not a mapped ORM instance), or leaves a
NULL foreign key that fails at commit — either way the request errors. -/
def alertRelAttrs : List String := ["rule", "host"]

/-- Python `hasattr(alert, field)` over the attribute names with an effect
on the stored row: the mapped columns and the two relationship attributes.
(Python `hasattr` is also true for plain class attributes such as
`metadata`; assigning those only shadows them on the instance and never
reaches the row, so the model folds them into the unrecognized keys.) -/
def Alert.hasattr (f : String) : Bool := f ∈ alertAttrs || f ∈ alertRelAttrs

/-- Python `setattr(alert, field, value)`: overwrite the named column with
the raw payload value; an unknown name leaves the row unchanged (the caller
guards with `hasattr`). -/
def Alert.setattr (a : Alert) (f : String) (v : Value) : Alert :=
  if f = "id" then { a with id := v }
  else if f = "rule_id" then { a with rule_id := v }
  else if f = "host_id" then { a with host_id := v }
  else if f = "first_seen" then { a with first_seen := v }
  else if f = "last_seen" then { a with last_seen := v }
  else if f = "severity" then { a with severity := v }
  else if f = "title" then { a with title := v }
  else if f = "description" then { a with description := v }
  else if f = "status" then { a with status := v }
  else if f = "artifact" then { a with artifact := v }
  else a

/-- Python `getattr(alert, field)` on the mapped columns. -/
def Alert.getattr (a : Alert) (f : String) : Option Value :=
  if f = "id" then some a.id
  else if f = "rule_id" then some a.rule_id
  else if f = "host_id" then some a.host_id
  else if f = "first_seen" then some a.first_seen
  else if f = "last_seen" then some a.last_seen
  else if f = "severity" then some a.severity
  else if f = "title" then some a.title
  else if f = "description" then some a.description
  else if f = "status" then some a.status
  else if f = "artifact" then some a.artifact
  else none

/-- A JSON request body, as the ordered key/value pairs of a `dict`. -/
abbrev Payload := List (String × Value)

/-- The net effect of `update_alert`'s loop on the stored columns: every
key naming a mapped column is written verbatim, every other key leaves the
row unchanged. -/
def applyPayload (a : Alert) (p : Payload) : Alert :=
  p.foldl (fun acc kv => if Alert.hasattr kv.1 then acc.setattr kv.1 kv.2 else acc) a

/-- Python `dict` lookup on a request body (`host_data["hostname"]`,
`rule_data.get("definition")`, ...): the value of the first matching key. -/
def plookup (p : Payload) (k : String) : Option Value :=
  (p.find? (fun kv => kv.1 = k)).map (fun kv => kv.2)

/-- `hosts` table row (`models.py`, class `Host`).  `hostname`, `platform`
and `os_version` come straight out of the request body, so they stay
dynamically typed; timestamps are modelled as integer instants. -/
structure Host where
  id : Int
  hostname : Value
  platform : Value
  os_version : Value
  last_seen : Int
  created_at : Int
  deriving DecidableEq, Repr

/-- `events` table row (`models.py`, class `Event`): immutable telemetry
fact with type tag, severity, timestamp and type-specific nullable fields. -/
structure Event where
  id : Int
  host_id : Int
  event_time : Int
  event_type : String
  severity : String
  proc_name : Option String
  proc_pid : Option Int
  proc_ppid : Option Int
  proc_cmdline : Option String
  file_path : Option String
  file_action : Option String
  net_raddr : Option String
  net_rport : Option Int
  net_laddr : Option String
  net_lport : Option Int
  net_protocol : Option String
  raw_data : Option Value
  deriving DecidableEq, Repr

/-- `rules` table row (`models.py`, class `Rule`): name (unique column),
version (a string, default `'1.0'`), enabled flag (default true) and the
opaque JSON definition. -/
structure Rule where
  id : Int
  name : Value
  version : String
  enabled : Bool
  definition : Value
  created_at : Int
  updated_at : Int
  deriving DecidableEq, Repr

/-- The committed database state: the four row tables the API reads and
writes (`rule_matches` is declared in `models.py` but no handler touches it,
so it is omitted from the state). -/
structure DB where
  hosts : List Host
  events : List Event
  rules : List Rule
  alerts : List Alert
  deriving DecidableEq, Repr

/-- An HTTP error response: status code plus detail string, as raised by
`HTTPException(status_code=..., detail=...)`. -/
structure HErr where
  status : Nat
  detail : String
  deriving DecidableEq, Repr

/-- Starlette renders `str(HTTPException(404, d))` as `"404: " ++ d`; the
`except` blocks in `app.py` wrap that string into a fresh 500. -/
def HErr.pyStr (e : HErr) : String := toString e.status ++ ": " ++ e.detail

/-- Next autoincrement primary key for a table whose current ids are `ids`. -/
def nextId (ids : List Int) : Int := ids.foldr max 0 + 1

/-- `POST /api/hosts` (`create_host` in `app.py`): requires `hostname` and
`platform` keys (a missing key raises `KeyError`, caught and turned into a
rollback plus a 500); `os_version` is optional; `last_seen` is set to the
current time.  Returns the post-handler database and the HTTP outcome. -/
def create_host (db : DB) (host_data : Payload) (now : Int) : DB × Except HErr Host :=
  match plookup host_data "hostname", plookup host_data "platform" with
  | some hn, some pl =>
      let host : Host :=
        { id := nextId (db.hosts.map Host.id), hostname := hn, platform := pl,
          os_version := (plookup host_data "os_version").getD .vNull,
          last_seen := now, created_at := now }
      ({ db with hosts := db.hosts ++ [host] }, .ok host)
  | _, _ => (db, .error ⟨500, "KeyError"⟩)

/-- `POST /api/rules` (`create_rule` in `app.py`): requires `name` and
`definition` keys; the new row gets the column defaults `version='1.0'`,
`enabled=True`.  A duplicate name violates the unique constraint on
`rules.name` at commit, which the `except` block turns into a rollback and
a 500, leaving the table unchanged. -/
def create_rule (db : DB) (rule_data : Payload) (now : Int) : DB × Except HErr Rule :=
  match plookup rule_data "name", plookup rule_data "definition" with
  | some nm, some defn =>
      if db.rules.any (fun r => r.name = nm) then
        (db, .error ⟨500, "IntegrityError"⟩)
      else
        let rule : Rule :=
          { id := nextId (db.rules.map Rule.id), name := nm, version := "1.0",
            enabled := true, definition := defn, created_at := now, updated_at := now }
        ({ db with rules := db.rules ++ [rule] }, .ok rule)
  | _, _ => (db, .error ⟨500, "KeyError"⟩)

/-- The query body of `GET /api/events` (`get_events` in `app.py`): each of
the three filters is applied only when its value is Python-truthy (`if
event_type:` skips both `None` and `""`; `if host_id:` skips both `None`
and `0`), then `offset(skip).limit(limit)`. -/
def get_events (db : DB) (skip limit : Int) (event_type severity : Option String)
    (host_id : Option Int) : List Event :=
  let q := db.events
  let q := match event_type with
    | some et => if et ≠ "" then q.filter (fun (e : Event) => e.event_type = et) else q
    | none => q
  let q := match severity with
    | some sv => if sv ≠ "" then q.filter (fun (e : Event) => e.severity = sv) else q
    | none => q
  let q := match host_id with
    | some h => if h ≠ 0 then q.filter (fun (e : Event) => e.host_id = h) else q
    | none => q
  (q.drop skip.toNat).take limit.toNat

/-- `GET /api/events` including FastAPI's parameter validation: `skip`
declared `Query(0, ge=0)` and `limit` declared `Query(100, ge=1, le=1000)`;
an out-of-range value is rejected with a 422 before the handler runs. -/
def get_events_endpoint (db : DB) (skip limit : Option Int)
    (event_type severity : Option String) (host_id : Option Int) :
    Except HErr (List Event) :=
  let sk := skip.getD 0
  let lim := limit.getD 100
  if sk < 0 ∨ lim < 1 ∨ 1000 < lim then .error ⟨422, "validation error"⟩
  else .ok (get_events db sk lim event_type severity host_id)

/-- `db.query(Alert).filter(Alert.id == alert_id).first()`: the Python `==`
between the dynamically typed column and the path-parameter int. -/
def findAlert (alerts : List Alert) (alert_id : Int) : Option Alert :=
  alerts.find? (fun a => a.id = Value.vInt alert_id)

/-- Committing the session after `update_alert`'s setattr loop: the first
row whose `id` matches is replaced by its updated version. -/
def updateFirstAlert : List Alert → Int → Payload → List Alert
  | [], _, _ => []
  | a :: t, i, p =>
      if a.id = Value.vInt i then applyPayload a p :: t
      else a :: updateFirstAlert t i p

/-- The update loop of `update_alert` (`app.py`), exceptions included:
`for field, value in alert_data.items(): if hasattr(alert, field):
setattr(alert, field, value)`.  A key naming a mapped column is written
verbatim; a key naming a relationship attribute (`rule`, `host`) makes
`setattr` raise, aborting the loop with the exception the handler's
`except` block catches. -/
def applyPayloadLoop (a : Alert) : Payload → Except HErr Alert
  | [] => .ok a
  | kv :: t =>
      if Alert.hasattr kv.1 then
        if kv.1 ∈ alertRelAttrs then .error ⟨500, "AttributeError"⟩
        else applyPayloadLoop (a.setattr kv.1 kv.2) t
      else applyPayloadLoop a t

/-- `PUT /api/alerts/{alert_id}` (`update_alert` in `app.py`).  The handler
looks the alert up, raises `HTTPException(404, "Alert not found")` when it
is missing — but that raise happens inside the `try`, so the generic
`except Exception` catches it, rolls the session back and re-raises
`HTTPException(500, str(e))`, i.e. a 500 whose detail is the rendered 404.
When the alert exists, the setattr loop runs: a payload key naming a
relationship attribute makes it raise, which is again caught, rolled back
and returned as a 500 (nothing persists); otherwise every key naming a
mapped column is written with `setattr` (no validation), the session
commits, and the updated row is returned. -/
def update_alert (db : DB) (alert_id : Int) (alert_data : Payload) :
    DB × Except HErr Alert :=
  match findAlert db.alerts alert_id with
  | none => (db, .error ⟨500, (HErr.pyStr ⟨404, "Alert not found"⟩)⟩)
  | some a =>
      match applyPayloadLoop a alert_data with
      | .error e => (db, .error e)
      | .ok a2 =>
          ({ db with alerts := updateFirstAlert db.alerts alert_id alert_data },
           .ok a2)

/-- Every HTTP operation exposed by `app.py`.  `GET` handlers only issue
queries; the three mutating constructors carry their request data (and the
`datetime.now()` instant where the handler reads the clock). -/
inductive ApiOp where
  | root
  | healthCheck
  | getDashboard
  | getHosts
  | createHost (host_data : Payload) (now : Int)
  | getEvents (skip limit : Option Int) (event_type severity : Option String)
      (host_id : Option Int)
  | getRules
  | createRule (rule_data : Payload) (now : Int)
  | getAlerts (skip limit : Option Int) (severity status : Option String)
  | updateAlert (alert_id : Int) (alert_data : Payload)

/-- The effect of one API operation on the committed database state.  Read
handlers (`root`, `health_check`, `get_dashboard_stats`, `get_hosts`,
`get_events`, `get_rules`, `get_alerts`) only run `SELECT`s. -/
def applyOp (op : ApiOp) (db : DB) : DB :=
  match op with
  | .createHost p now => (create_host db p now).1
  | .createRule p now => (create_rule db p now).1
  | .updateAlert i p => (update_alert db i p).1
  | _ => db

/-- A whole API session: operations applied in order. -/
def applyOps (ops : List ApiOp) (db : DB) : DB :=
  ops.foldl (fun st op => applyOp op st) db

/-- `AgentSettings` from `config.py`: `collection_interval` defaults to 30
(env `AGENT_INTERVAL`), `buffer_size` to 1000 (env `AGENT_BUFFER_SIZE`),
`retry_attempts` to 3 (env `AGENT_RETRY_ATTEMPTS`) and `retry_backoff` to
1.5 (env `AGENT_RETRY_BACKOFF`); the backoff factor is modelled as the
exact rational 3/2. -/
structure AgentSettings where
  collection_interval : Int
  buffer_size : Int
  retry_attempts : Int
  retry_backoff : Rat
  deriving DecidableEq, Repr

/-- The environment overrides pydantic consults when building
`AgentSettings`: each field is `none` when its env var is unset. -/
structure AgentEnv where
  AGENT_INTERVAL : Option Int
  AGENT_BUFFER_SIZE : Option Int
  AGENT_RETRY_ATTEMPTS : Option Int
  AGENT_RETRY_BACKOFF : Option Rat
  deriving DecidableEq, Repr

/-- pydantic `BaseSettings` construction: every field takes its env
override when present and its declared default otherwise. -/
def AgentSettings.load (e : AgentEnv) : AgentSettings :=
  { collection_interval := e.AGENT_INTERVAL.getD 30,
    buffer_size := e.AGENT_BUFFER_SIZE.getD 1000,
    retry_attempts := e.AGENT_RETRY_ATTEMPTS.getD 3,
    retry_backoff := e.AGENT_RETRY_BACKOFF.getD (3 / 2) }

/-- The environment with no agent env var set. -/
def AgentEnv.empty : AgentEnv := ⟨none, none, none, none⟩

/-! ## The rule-matching engine of the specification

The repository stores rules as opaque JSON and never evaluates them; the
spec (§4.1, §4.4) defines the Rule Model and Alert Aggregator that the
product would need.  The definitions below are therefore modelled from the
spec, not translated from `src/`. -/

/-- Modelled from the spec: the structured rule definition of §4.1 — "a
structured boolean expression over event fields (field, operator, value;
AND/OR/NOT combinators)".  No implementation exists in `src/`. -/
inductive RuleExpr where
  | pred (field : String) (op : String) (value : Value)
  | and (l r : RuleExpr)
  | or (l r : RuleExpr)
  | not (e : RuleExpr)
  deriving DecidableEq, Repr

/-- Modelled from the spec: the type of a recognized event field, used to
decide which operators apply (string / numeric / network address). -/
inductive FieldType where
  | str
  | num
  | addr
  deriving DecidableEq, Repr

/-- Modelled from the spec: "every referenced field is a recognized event
field" — the recognized fields are the queryable columns of the `Event`
model, classified by column type. -/
def fieldType (f : String) : Option FieldType :=
  if f ∈ ["event_type", "severity", "proc_name", "proc_cmdline",
          "file_path", "file_action", "net_protocol"] then some .str
  else if f ∈ ["event_time", "proc_pid", "proc_ppid", "net_rport", "net_lport"] then
    some .num
  else if f ∈ ["net_raddr", "net_laddr"] then some .addr
  else none

/-- Modelled from the spec: "every operator is supported for that field's
type (string: equals/contains/regex/prefix; numeric: eq/lt/gt/range;
network address: cidr-match)". -/
def opSupported (t : FieldType) (op : String) : Bool :=
  match t with
  | .str => op ∈ ["equals", "contains", "regex", "prefix"]
  | .num => op ∈ ["eq", "lt", "gt", "range"]
  | .addr => op = "cidr-match"

/-- One leaf predicate is supported when its field is recognized and its
operator fits the field's type. -/
def predOk (field op : String) : Bool :=
  match fieldType field with
  | some t => opSupported t op
  | none => false

/-- Every field/operator pair in the definition is supported. -/
def defOk : RuleExpr → Bool
  | .pred f op _ => predOk f op
  | .and l r => defOk l && defOk r
  | .or l r => defOk l && defOk r
  | .not e => defOk e

/-- Combinator nesting depth: leaves nest nothing, each AND/OR/NOT level
adds one. -/
def nestDepth : RuleExpr → Nat
  | .pred _ _ _ => 0
  | .and l r => max (nestDepth l) (nestDepth r) + 1
  | .or l r => max (nestDepth l) (nestDepth r) + 1
  | .not e => nestDepth e + 1

/-- Modelled from the spec: the compile-time error taxonomy of §7 —
`RuleDefinitionError` (malformed/unsupported rule) and
`RuleTooComplexError` (nesting depth exceeded). -/
inductive RuleError where
  | RuleDefinitionError
  | RuleTooComplexError
  deriving DecidableEq, Repr

/-- Modelled from the spec: the immutable compiled predicate tree produced
by a successful `compile`. -/
structure CompiledRule where
  expr : RuleExpr
  deriving DecidableEq, Repr

/-- The implementation-defined maximum nesting depth (spec default: 16). -/
def maxNestingDepth : Nat := 16

/-- Modelled from the spec: `compile(definition) -> CompiledRule | fails`.
Exceeding the max nesting depth fails with `RuleTooComplexError`; an
unsupported field/operator pair fails with `RuleDefinitionError`. -/
def compile (maxDepth : Nat) (e : RuleExpr) : Except RuleError CompiledRule :=
  if maxDepth < nestDepth e then .error .RuleTooComplexError
  else if defOk e then .ok ⟨e⟩
  else .error .RuleDefinitionError

/-- Modelled from the spec: a submitted rule definition with its enable
flag; disabled rules compile but are excluded from the active set. -/
structure RuleDef where
  expr : RuleExpr
  enabled : Bool
  deriving DecidableEq, Repr

/-- Modelled from the spec: the active rule set exposed to the Matcher —
the definitions that compile successfully and are enabled; a definition
that fails to compile never enters it. -/
def activeRuleSet (maxDepth : Nat) (defs : List RuleDef) : List CompiledRule :=
  defs.foldr
    (fun d acc =>
      match compile maxDepth d.expr with
      | .ok c => if d.enabled then c :: acc else acc
      | .error _ => acc)
    []

/-- Modelled from the spec: the dedup key of §4.4 — derived from the
rule's id, the host's id and the rule-declared dedup fields extracted from
the match details (kept abstract as a hash value). -/
structure DedupKey where
  rule_id : Int
  host_id : Int
  fields_hash : Int
  deriving DecidableEq, Repr

/-- Alert lifecycle status (open / acknowledged / closed). -/
inductive AlertStatus where
  | opened
  | acknowledged
  | closed
  deriving DecidableEq, Repr

/-- Modelled from the spec: one Matcher match handed to the Aggregator,
carrying its dedup key, the matched event's timestamp and the rule's
severity. -/
structure MatchIn where
  key : DedupKey
  event_time : Int
  severity : String
  deriving DecidableEq, Repr

/-- Modelled from the spec: the Alert aggregate state per dedup key
(first_seen / last_seen / severity / status). -/
structure AggAlert where
  key : DedupKey
  first_seen : Int
  last_seen : Int
  severity : String
  status : AlertStatus
  deriving DecidableEq, Repr

/-- Modelled from the spec: the Extend transition of §4.4 — `last_seen =
max(existing.last_seen, event_time)`; status unchanged unless previously
closed with `reopen_on_match` set, in which case it reopens. -/
def extendAlert (reopen : Bool) (a : AggAlert) (m : MatchIn) : AggAlert :=
  { a with
    last_seen := max a.last_seen m.event_time,
    status := if a.status = .closed ∧ reopen then .opened else a.status }

/-- Modelled from the spec: the Aggregator's handling of one match (§4.4):
look up the existing alert for the match's dedup key; none found emits a
Create (a fresh row with `first_seen = last_seen = event_time`, status
open); found emits an Extend of that row — never a second row. -/
def aggregateOne (reopen : Bool) (st : List AggAlert) (m : MatchIn) : List AggAlert :=
  if st.any (fun a => a.key = m.key) then
    st.map (fun a => if a.key = m.key then extendAlert reopen a m else a)
  else
    st ++ [{ key := m.key, first_seen := m.event_time, last_seen := m.event_time,
             severity := m.severity, status := .opened }]

/-- Modelled from the spec: aggregating a stream of matches in order. -/
def aggregate (reopen : Bool) (st : List AggAlert) (ms : List MatchIn) : List AggAlert :=
  ms.foldl (aggregateOne reopen) st

/-- Number of alert rows carrying a given dedup key. -/
def countKey (st : List AggAlert) (k : DedupKey) : Nat :=
  (st.filter (fun a => a.key = k)).length

/-- At most one alert row per dedup key: the keys are pairwise distinct. -/
def keysNodup (st : List AggAlert) : Prop :=
  (st.map AggAlert.key).Nodup

/-- The spec invariant `Alert.first_seen ≤ Alert.last_seen`, read over the
dynamically typed columns: both hold integer instants, in order. -/
def fsLeLs (a : Alert) : Bool :=
  match a.first_seen, a.last_seen with
  | .vInt f, .vInt l => f ≤ l
  | _, _ => false

/-- A sample open alert (id 1) used to instantiate the theorems. -/
def alertA : Alert :=
  { id := .vInt 1, rule_id := .vInt 1, host_id := .vInt 1,
    first_seen := .vInt 0, last_seen := .vInt 0,
    severity := .vStr "high", title := .vStr "beacon", description := .vNull,
    status := .vStr "open", artifact := .vNull }

/-- A database holding just `alertA`. -/
def dbA : DB := { hosts := [], events := [], rules := [], alerts := [alertA] }

/-- The empty database. -/
def dbEmpty : DB := { hosts := [], events := [], rules := [], alerts := [] }

/-- A sample event on host 1. -/
def eventE : Event :=
  { id := 1, host_id := 1, event_time := 0, event_type := "network", severity := "low",
    proc_name := none, proc_pid := none, proc_ppid := none, proc_cmdline := none,
    file_path := none, file_action := none, net_raddr := none, net_rport := none,
    net_laddr := none, net_lport := none, net_protocol := none, raw_data := none }

/-- A database holding just `eventE`. -/
def dbE : DB := { hosts := [], events := [eventE], rules := [], alerts := [] }

/-- A rule definition that is pure NOT-nesting of the given depth over one
supported leaf predicate. -/
def deepExpr : Nat → RuleExpr
  | 0 => .pred "event_type" "equals" (.vStr "network")
  | n + 1 => .not (deepExpr n)

/-- Two sample matches sharing one dedup key. -/
def matchM : MatchIn := { key := ⟨1, 1, 0⟩, event_time := 5, severity := "high" }

/-- A later match with the same dedup key as `matchM`. -/
def matchM2 : MatchIn := { key := ⟨1, 1, 0⟩, event_time := 9, severity := "high" }

/-! ## Lemmas about the `setattr` loop -/

theorem setattr_not_col (a : Alert) (g : String) (v : Value)
    (h : g ∉ alertAttrs) : a.setattr g v = a := by
  simp only [alertAttrs, List.mem_cons, List.not_mem_nil, or_false, not_or] at h
  obtain ⟨h1, h2, h3, h4, h5, h6, h7, h8, h9, h10⟩ := h
  simp [Alert.setattr, h1, h2, h3, h4, h5, h6, h7, h8, h9, h10]

theorem getattr_setattr_ne (a : Alert) (f g : String) (v : Value) (h : f ≠ g) :
    (a.setattr g v).getattr f = a.getattr f := by
  by_cases hg : g ∈ alertAttrs
  · simp only [alertAttrs, List.mem_cons, List.not_mem_nil, or_false] at hg
    rcases hg with rfl | rfl | rfl | rfl | rfl | rfl | rfl | rfl | rfl | rfl <;>
      simp [Alert.setattr, Alert.getattr, h]
  · rw [setattr_not_col a g v hg]

theorem applyPayload_nil (a : Alert) : applyPayload a [] = a := rfl

theorem applyPayload_cons (a : Alert) (kv : String × Value) (t : Payload) :
    applyPayload a (kv :: t) =
      applyPayload (if Alert.hasattr kv.1 then a.setattr kv.1 kv.2 else a) t := rfl

theorem getattr_applyPayload_not_mem (p : Payload) (a : Alert) (f : String)
    (h : f ∉ p.map Prod.fst) :
    (applyPayload a p).getattr f = a.getattr f := by
  induction p generalizing a with
  | nil => rfl
  | cons kv t ih =>
      simp only [List.map_cons, List.mem_cons, not_or] at h
      rw [applyPayload_cons, ih _ h.2]
      by_cases hh : Alert.hasattr kv.1 = true
      · rw [if_pos hh]
        exact getattr_setattr_ne a f kv.1 kv.2 h.1
      · rw [if_neg hh]

theorem applyPayload_filter_attrs (p : Payload) (a : Alert) :
    applyPayload a p = applyPayload a (p.filter (fun kv => Alert.hasattr kv.1)) := by
  induction p generalizing a with
  | nil => rfl
  | cons kv t ih =>
      by_cases hh : Alert.hasattr kv.1 = true
      · have hfc : List.filter (fun kv => Alert.hasattr kv.1) (kv :: t) =
            kv :: List.filter (fun kv => Alert.hasattr kv.1) t := by
          simp [List.filter_cons, hh]
        rw [hfc, applyPayload_cons, applyPayload_cons]
        exact ih _
      · have hfc : List.filter (fun kv => Alert.hasattr kv.1) (kv :: t) =
            List.filter (fun kv => Alert.hasattr kv.1) t := by
          simp [List.filter_cons, hh]
        rw [hfc, applyPayload_cons, if_neg hh]
        exact ih a

theorem applyPayloadLoop_error_shape (p : Payload) (a : Alert) (e : HErr)
    (h : applyPayloadLoop a p = .error e) : e = ⟨500, "AttributeError"⟩ := by
  induction p generalizing a with
  | nil => exact Except.noConfusion h
  | cons kv t ih =>
      simp only [applyPayloadLoop] at h
      by_cases hh : Alert.hasattr kv.1 = true
      · rw [if_pos hh] at h
        by_cases hrel : kv.1 ∈ alertRelAttrs
        · rw [if_pos hrel] at h
          exact (Except.error.inj h).symm
        · rw [if_neg hrel] at h
          exact ih _ h
      · rw [if_neg hh] at h
        exact ih _ h

theorem getattr_first_seen (a : Alert) : a.getattr "first_seen" = some a.first_seen := by
  simp [Alert.getattr]

theorem getattr_last_seen (a : Alert) : a.getattr "last_seen" = some a.last_seen := by
  simp [Alert.getattr]

theorem fsLeLs_applyPayload (p : Payload) (a : Alert)
    (hf : "first_seen" ∉ p.map Prod.fst) (hl : "last_seen" ∉ p.map Prod.fst) :
    fsLeLs (applyPayload a p) = fsLeLs a := by
  have h1 := getattr_applyPayload_not_mem p a "first_seen" hf
  have h2 := getattr_applyPayload_not_mem p a "last_seen" hl
  rw [getattr_first_seen, getattr_first_seen] at h1
  rw [getattr_last_seen, getattr_last_seen] at h2
  have e1 : (applyPayload a p).first_seen = a.first_seen := Option.some.inj h1
  have e2 : (applyPayload a p).last_seen = a.last_seen := Option.some.inj h2
  simp only [fsLeLs, e1, e2]

theorem updateFirstAlert_length (l : List Alert) (i : Int) (p : Payload) :
    (updateFirstAlert l i p).length = l.length := by
  induction l with
  | nil => rfl
  | cons a t ih =>
      rw [updateFirstAlert]
      split
      · simp
      · simp [ih]

theorem mem_updateFirstAlert (l : List Alert) (i : Int) (p : Payload) (b : Alert)
    (hb : b ∈ updateFirstAlert l i p) :
    b ∈ l ∨ ∃ c ∈ l, b = applyPayload c p := by
  induction l with
  | nil => cases hb
  | cons a t ih =>
      rw [updateFirstAlert] at hb
      split at hb
      · rcases List.mem_cons.mp hb with h | h
        · right; exact ⟨a, List.mem_cons_self a t, h⟩
        · left; exact List.mem_cons_of_mem a h
      · rcases List.mem_cons.mp hb with h | h
        · left; rw [h]; exact List.mem_cons_self a t
        · rcases ih h with h2 | ⟨c, hc, hbc⟩
          · left; exact List.mem_cons_of_mem a h2
          · right; exact ⟨c, List.mem_cons_of_mem a hc, hbc⟩

/-- Claim C2 fails on the code as stated: `update_alert` performs no
validation, so a `PUT` payload that sets `first_seen` past `last_seen` is
written verbatim.  Concretely: `alertA` satisfies the invariant, and a
payload of `{"first_seen": 5}` leaves the stored alert with
`first_seen = 5 > 0 = last_seen`. -/
theorem update_alert_breaks_seen_order :
    fsLeLs alertA = true ∧
    (update_alert dbA 1 [("first_seen", Value.vInt 5)]).2 =
      .ok { alertA with first_seen := Value.vInt 5 } ∧
    fsLeLs { alertA with first_seen := Value.vInt 5 } = false :=
  ⟨by decide, by rfl, by decide⟩

/-- Claim C2 (amended): `PUT /api/alerts/{alert_id}` preserves
`first_seen ≤ last_seen` on every stored alert provided the payload does
not name `first_seen` or `last_seen`; a payload naming either is written
without validation and can break the invariant. -/
theorem update_alert_preserves_seen_order (db : DB) (i : Int) (p : Payload)
    (hf : "first_seen" ∉ p.map Prod.fst) (hl : "last_seen" ∉ p.map Prod.fst)
    (hInv : ∀ a ∈ db.alerts, fsLeLs a = true) :
    ∀ b ∈ (update_alert db i p).1.alerts, fsLeLs b = true := by
  intro b hb
  cases hfind : findAlert db.alerts i with
  | none =>
      simp only [update_alert, hfind] at hb
      exact hInv b hb
  | some a =>
      cases hloop : applyPayloadLoop a p with
      | error e =>
          simp only [update_alert, hfind, hloop] at hb
          exact hInv b hb
      | ok a2 =>
          simp only [update_alert, hfind, hloop] at hb
          rcases mem_updateFirstAlert db.alerts i p b hb with h | ⟨c, hc, rfl⟩
          · exact hInv b h
          · rw [fsLeLs_applyPayload p c hf hl]
            exact hInv c hc

/-- Witness for the amended C2: updating `alertA`'s status keeps the
invariant on the stored row. -/
theorem update_alert_preserves_seen_order_witness :
    fsLeLs { alertA with status := Value.vStr "closed" } = true :=
  update_alert_preserves_seen_order dbA 1 [("status", Value.vStr "closed")]
    (by decide) (by decide) (by decide)
    { alertA with status := Value.vStr "closed" } (by decide)

/-- Claim C9: whenever `PUT /api/alerts/{alert_id}` returns an error, the
session has been rolled back (the committed state is unchanged) and the
status is 500; in particular a missing alert id yields a 500 whose detail
is the rendered 404 ("404: Alert not found"), never a 404 response. -/
theorem update_alert_rolls_back_on_error (db : DB) (i : Int) (p : Payload) :
    (∀ e, (update_alert db i p).2 = .error e →
        (update_alert db i p).1 = db ∧ e.status = 500) ∧
    (findAlert db.alerts i = none →
        update_alert db i p = (db, .error ⟨500, "404: Alert not found"⟩)) := by
  constructor
  · intro e he
    cases hfind : findAlert db.alerts i with
    | none =>
        simp only [update_alert, hfind] at he
        constructor
        · simp only [update_alert, hfind]
        · rw [← Except.error.inj he]
    | some a =>
        cases hloop : applyPayloadLoop a p with
        | error e2 =>
            simp only [update_alert, hfind, hloop] at he
            constructor
            · simp only [update_alert, hfind, hloop]
            · have hee : e2 = e := by simpa using he
              rw [← hee, applyPayloadLoop_error_shape p a e2 hloop]
        | ok a2 =>
            simp only [update_alert, hfind, hloop] at he
            exact Except.noConfusion he
  · intro h
    simp only [update_alert, h]
    rfl

/-! ## Frame facts about the whole API surface -/

theorem applyOps_nil (db : DB) : applyOps [] db = db := rfl

theorem applyOps_cons (op : ApiOp) (t : List ApiOp) (db : DB) :
    applyOps (op :: t) db = applyOps t (applyOp op db) := rfl

theorem applyOp_events (op : ApiOp) (db : DB) :
    (applyOp op db).events = db.events := by
  cases op <;> try rfl
  case createHost p now =>
    simp only [applyOp, create_host]
    split <;> rfl
  case createRule p now =>
    simp only [applyOp, create_rule]
    split
    all_goals first | (split <;> rfl) | rfl
  case updateAlert i p =>
    simp only [applyOp, update_alert]
    split
    · rfl
    · split <;> rfl

theorem alertRowCount_applyOp (op : ApiOp) (db : DB) :
    ((applyOp op db).alerts).length = db.alerts.length := by
  cases op <;> try rfl
  case createHost p now =>
    simp only [applyOp, create_host]
    split <;> rfl
  case createRule p now =>
    simp only [applyOp, create_rule]
    split
    all_goals first | (split <;> rfl) | rfl
  case updateAlert i p =>
    simp only [applyOp, update_alert]
    split
    · rfl
    · split
      · rfl
      · simp only [updateFirstAlert_length]

theorem applyOp_rules_mono (op : ApiOp) (db : DB) :
    (applyOp op db).rules = db.rules ∨
    ∃ nr : Rule, (applyOp op db).rules = db.rules ++ [nr] ∧ nr.version = "1.0" := by
  cases op <;> try (left; rfl)
  case createHost p now =>
    simp only [applyOp, create_host]
    split <;> (left; rfl)
  case createRule p now =>
    simp only [applyOp, create_rule]
    split
    · split
      · left; rfl
      · right; exact ⟨_, rfl, rfl⟩
    · left; rfl
  case updateAlert i p =>
    simp only [applyOp, update_alert]
    split
    · left; rfl
    · split <;> (left; rfl)

/-- Claim C6: events are append-only.  In the provided program this holds
in the strongest form: no API operation touches the `events` table at all
(there is not even an event-creating endpoint), so across any sequence of
operations every existing Event row survives with every field intact. -/
theorem events_append_only (ops : List ApiOp) (db : DB) :
    (applyOps ops db).events = db.events := by
  induction ops generalizing db with
  | nil => rfl
  | cons op t ih => rw [applyOps_cons, ih, applyOp_events]

/-- The number of alert rows is an invariant of every API operation
sequence: `PUT /api/alerts/{alert_id}` updates in place, and no handler
inserts into or deletes from `alerts`. -/
theorem api_ops_never_create_alerts (ops : List ApiOp) (db : DB) :
    ((applyOps ops db).alerts).length = db.alerts.length := by
  induction ops generalizing db with
  | nil => rfl
  | cons op t ih => rw [applyOps_cons, ih, alertRowCount_applyOp]

/-- Claim C4 as frozen is false on the code: it asserts that some HTTP API
operation creates an Alert row, but `app.py` exposes no alert-creating
endpoint (only `GET /api/alerts` and `PUT /api/alerts/{alert_id}`), so no
operation ever grows the `alerts` table. -/
theorem no_api_op_creates_alert :
    ¬ ∃ (op : ApiOp) (db : DB), db.alerts.length < ((applyOp op db).alerts).length := by
  rintro ⟨op, db, hlt⟩
  rw [alertRowCount_applyOp op db] at hlt
  exact lt_irrefl _ hlt

/-- Claim C7: rule rows are immutable once created.  Every rule present
before an operation sequence survives it with the same fields — in
particular the same `definition` and the same `version` — and every rule
the sequence adds carries the initial version `'1.0'`.  (No endpoint
modifies an existing rule, so a definition change, which would be the
trigger for a version increment, cannot occur.) -/
theorem rule_rows_keep_version (ops : List ApiOp) (db : DB) (r : Rule) :
    (r ∈ db.rules → r ∈ (applyOps ops db).rules) ∧
    (r ∈ (applyOps ops db).rules → r ∈ db.rules ∨ r.version = "1.0") := by
  induction ops generalizing db with
  | nil => exact ⟨fun h => h, fun h => Or.inl h⟩
  | cons op t ih =>
      rw [applyOps_cons]
      constructor
      · intro h
        refine (ih (applyOp op db)).1 ?_
        rcases applyOp_rules_mono op db with heq | ⟨nr, heq, _⟩
        · rw [heq]; exact h
        · rw [heq]; exact List.mem_append_left _ h
      · intro h
        rcases (ih (applyOp op db)).2 h with h2 | hv
        · rcases applyOp_rules_mono op db with heq | ⟨nr, heq, hver⟩
          · rw [heq] at h2; exact Or.inl h2
          · rw [heq] at h2
            rcases List.mem_append.mp h2 with h3 | h3
            · exact Or.inl h3
            · right
              rw [List.mem_singleton.mp h3]
              exact hver
        · exact Or.inr hv

/-! ## Configuration defaults (C5) -/

/-- Claim C5: `AgentSettings` supplies `retry_attempts` (default 3),
`retry_backoff` (default 1.5, the exact rational 3/2) and `buffer_size`
(default 1000), and each is overridable through its named env option
regardless of what the rest of the environment holds. -/
theorem agent_settings_defaults (e : AgentEnv) (n m : Int) (q : Rat) :
    (AgentSettings.load AgentEnv.empty).retry_attempts = 3 ∧
    (AgentSettings.load AgentEnv.empty).retry_backoff = 3 / 2 ∧
    (AgentSettings.load AgentEnv.empty).buffer_size = 1000 ∧
    (AgentSettings.load { e with AGENT_RETRY_ATTEMPTS := some n }).retry_attempts = n ∧
    (AgentSettings.load { e with AGENT_RETRY_BACKOFF := some q }).retry_backoff = q ∧
    (AgentSettings.load { e with AGENT_BUFFER_SIZE := some m }).buffer_size = m := by
  simp [AgentSettings.load, AgentEnv.empty]

/-! ## GET /api/events (C10) -/

theorem strFilter_characterize (q : List Event) (proj : Event → String)
    (o : Option String) (e : Event)
    (he : e ∈ (match o with
               | some s => if s ≠ "" then q.filter (fun x => proj x = s) else q
               | none => q)) :
    e ∈ q ∧ ∀ s, o = some s → s ≠ "" → proj e = s := by
  cases o with
  | none => exact ⟨he, by intro s h; cases h⟩
  | some s =>
      have he2 : e ∈ (if s ≠ "" then q.filter (fun x => proj x = s) else q) := he
      by_cases hs : s ≠ ""
      · rw [if_pos hs, List.mem_filter] at he2
        refine ⟨he2.1, ?_⟩
        intro s2 hs2 _
        cases hs2
        exact of_decide_eq_true he2.2
      · rw [if_neg hs] at he2
        exact ⟨he2, by intro s2 hs2 hne; cases hs2; exact absurd hne hs⟩

theorem intFilter_characterize (q : List Event) (o : Option Int) (e : Event)
    (he : e ∈ (match o with
               | some h => if h ≠ 0 then q.filter (fun (x : Event) => x.host_id = h) else q
               | none => q)) :
    e ∈ q ∧ ∀ n, o = some n → n ≠ 0 → e.host_id = n := by
  cases o with
  | none => exact ⟨he, by intro n h; cases h⟩
  | some h =>
      have he2 : e ∈ (if h ≠ 0 then q.filter (fun (x : Event) => x.host_id = h) else q) := he
      by_cases hz : h ≠ 0
      · rw [if_pos hz, List.mem_filter] at he2
        refine ⟨he2.1, ?_⟩
        intro n hn _
        cases hn
        exact of_decide_eq_true he2.2
      · rw [if_neg hz] at he2
        exact ⟨he2, by intro n hn hne; cases hn; exact absurd hne hz⟩

theorem mem_get_events (db : DB) (sk lim : Int) (et sv : Option String)
    (hid : Option Int) (e : Event)
    (he : e ∈ get_events db sk lim et sv hid) :
    (∀ s, et = some s → s ≠ "" → e.event_type = s) ∧
    (∀ s, sv = some s → s ≠ "" → e.severity = s) ∧
    (∀ n, hid = some n → n ≠ 0 → e.host_id = n) := by
  unfold get_events at he
  have h3 := (List.drop_subset _ _) ((List.take_subset _ _) he)
  obtain ⟨h2, hhost⟩ := intFilter_characterize _ _ _ h3
  obtain ⟨h1, hsev⟩ := strFilter_characterize _ _ _ _ h2
  obtain ⟨h0, htype⟩ := strFilter_characterize _ _ _ _ h1
  exact ⟨htype, hsev, hhost⟩

theorem get_events_length (db : DB) (sk lim : Int) (et sv : Option String)
    (hid : Option Int) :
    (get_events db sk lim et sv hid).length ≤ lim.toNat := by
  unfold get_events
  rw [List.length_take]
  exact min_le_left _ _

/-- Claim C10 fails as stated: `get_events` applies a filter only when its
value is Python-truthy, so `host_id=0`, though provided, is ignored — the
call below returns `eventE` even though `eventE.host_id = 1 ≠ 0`. -/
theorem get_events_ignores_falsy_filter :
    get_events_endpoint dbE none none none none (some 0) = .ok [eventE] ∧
    eventE.host_id ≠ 0 := ⟨by rfl, by decide⟩

/-- Claim C10 (amended): `GET /api/events` validates `skip ≥ 0` and
`1 ≤ limit ≤ 1000` (defaults 0 and 100), returns at most `limit` events,
and every returned event satisfies each provided filter whose value is
truthy (a non-empty string, a non-zero host id); a provided falsy filter
value is silently ignored. -/
theorem get_events_limit_filters (db : DB) (skip limit : Option Int)
    (event_type severity : Option String) (host_id : Option Int)
    (es : List Event)
    (h : get_events_endpoint db skip limit event_type severity host_id = .ok es) :
    0 ≤ skip.getD 0 ∧ 1 ≤ limit.getD 100 ∧ limit.getD 100 ≤ 1000 ∧
    es.length ≤ (limit.getD 100).toNat ∧
    (∀ e ∈ es,
      (∀ s, event_type = some s → s ≠ "" → e.event_type = s) ∧
      (∀ s, severity = some s → s ≠ "" → e.severity = s) ∧
      (∀ n, host_id = some n → n ≠ 0 → e.host_id = n)) ∧
    (∀ sk lim : Int, sk < 0 ∨ lim < 1 ∨ 1000 < lim →
      get_events_endpoint db (some sk) (some lim) event_type severity host_id =
        .error ⟨422, "validation error"⟩) := by
  simp only [get_events_endpoint] at h
  split_ifs at h with hv
  push_neg at hv
  obtain ⟨hsk, hlim1, hlim2⟩ := hv
  injection h with h
  subst h
  refine ⟨hsk, hlim1, hlim2, get_events_length db _ _ _ _ _, ?_, ?_⟩
  · intro e he
    exact mem_get_events db _ _ _ _ _ e he
  · intro sk lim hbad
    simp only [get_events_endpoint, Option.getD_some]
    rw [if_pos hbad]

/-- Witness for the amended C10 at a concrete query: the default call on
`dbE` returns one event, within the default limit of 100. -/
theorem get_events_limit_filters_witness :
    ([eventE] : List Event).length ≤ ((none : Option Int).getD 100).toNat :=
  (get_events_limit_filters dbE none none none none none [eventE] (by rfl)).2.2.2.1

/-! ## Rule compilation (C3, spec-modelled) -/

theorem compile_ok_inv (d : Nat) (e : RuleExpr) (c : CompiledRule)
    (h : compile d e = .ok c) :
    c.expr = e ∧ nestDepth e ≤ d ∧ defOk e = true := by
  unfold compile at h
  split_ifs at h with h1 h2
  injection h with h
  refine ⟨by rw [← h], ?_, h2⟩
  omega

theorem activeRuleSet_cons (d : Nat) (x : RuleDef) (t : List RuleDef) :
    activeRuleSet d (x :: t) =
      match compile d x.expr with
      | .ok c => if x.enabled then c :: activeRuleSet d t else activeRuleSet d t
      | .error _ => activeRuleSet d t := rfl

theorem mem_activeRuleSet (d : Nat) (defs : List RuleDef) (c : CompiledRule)
    (hc : c ∈ activeRuleSet d defs) :
    nestDepth c.expr ≤ d ∧ defOk c.expr = true := by
  induction defs with
  | nil => cases hc
  | cons x t ih =>
      rw [activeRuleSet_cons] at hc
      cases hcomp : compile d x.expr with
      | ok cr =>
          rw [hcomp] at hc
          have hc2 : c ∈ (if x.enabled = true then cr :: activeRuleSet d t
              else activeRuleSet d t) := hc
          by_cases hen : x.enabled = true
          · rw [if_pos hen] at hc2
            rcases List.mem_cons.mp hc2 with h | h
            · obtain ⟨hex, hd, hok⟩ := compile_ok_inv d x.expr cr hcomp
              rw [h, hex]
              exact ⟨hd, hok⟩
            · exact ih h
          · rw [if_neg hen] at hc2
            exact ih hc2
      | error err =>
          rw [hcomp] at hc
          have hc2 : c ∈ activeRuleSet d t := hc
          exact ih hc2

/-- Claim C3: `compile` succeeds exactly when every field/operator pair of
the definition is supported and the AND/OR/NOT nesting stays within the
maximum depth (default 16); a definition exceeding the depth fails with
`RuleTooComplexError`, and nothing beyond the depth limit or with an
unsupported pair is ever found in the active rule set. -/
theorem compile_succeeds_iff_supported (e : RuleExpr) (defs : List RuleDef)
    (c : CompiledRule) :
    ((∃ cr, compile maxNestingDepth e = .ok cr) ↔
      (defOk e = true ∧ nestDepth e ≤ maxNestingDepth)) ∧
    (maxNestingDepth < nestDepth e →
      compile maxNestingDepth e = .error .RuleTooComplexError) ∧
    (c ∈ activeRuleSet maxNestingDepth defs →
      nestDepth c.expr ≤ maxNestingDepth ∧ defOk c.expr = true) := by
  refine ⟨⟨?_, ?_⟩, ?_, ?_⟩
  · rintro ⟨cr, hcr⟩
    obtain ⟨_, hd, hok⟩ := compile_ok_inv maxNestingDepth e cr hcr
    exact ⟨hok, hd⟩
  · rintro ⟨hok, hd⟩
    refine ⟨⟨e⟩, ?_⟩
    unfold compile
    rw [if_neg (by omega), if_pos hok]
  · intro hdeep
    unfold compile
    rw [if_pos hdeep]
  · exact mem_activeRuleSet maxNestingDepth defs c

/-! ## Alert aggregation (C1, spec-modelled) -/

theorem aggregate_nil (reopen : Bool) (st : List AggAlert) :
    aggregate reopen st [] = st := rfl

theorem aggregate_cons (reopen : Bool) (st : List AggAlert) (m : MatchIn)
    (t : List MatchIn) :
    aggregate reopen st (m :: t) = aggregate reopen (aggregateOne reopen st m) t := rfl

theorem key_extendAlert (reopen : Bool) (a : AggAlert) (m : MatchIn) :
    (extendAlert reopen a m).key = a.key := rfl

theorem countKey_nil (k : DedupKey) : countKey [] k = 0 := rfl

theorem countKey_cons (a : AggAlert) (st : List AggAlert) (k : DedupKey) :
    countKey (a :: st) k =
      (if a.key = k then 1 else 0) + countKey st k := by
  unfold countKey
  rw [List.filter_cons]
  split_ifs with h1 h2 h3
  · simp only [List.length_cons]
    omega
  · exact absurd (of_decide_eq_true h1) h2
  · exact absurd (decide_eq_true h3) h1
  · omega

theorem countKey_eq_zero_iff (st : List AggAlert) (k : DedupKey) :
    countKey st k = 0 ↔ st.any (fun a => a.key = k) = false := by
  induction st with
  | nil => simp [countKey_nil]
  | cons a t ih =>
      rw [countKey_cons, List.any_cons]
      by_cases h : a.key = k
      · simp [h]
      · simp [h, ih]

theorem countKey_map_of_keys (g : AggAlert → AggAlert) (l : List AggAlert)
    (k : DedupKey) (hg : ∀ a ∈ l, (g a).key = a.key) :
    countKey (l.map g) k = countKey l k := by
  induction l with
  | nil => rfl
  | cons a t ih =>
      have h1 := hg a (List.mem_cons_self a t)
      have h2 : ∀ b ∈ t, (g b).key = b.key :=
        fun b hb => hg b (List.mem_cons_of_mem a hb)
      rw [List.map_cons, countKey_cons, countKey_cons, h1, ih h2]

theorem countKey_aggregateOne (reopen : Bool) (st : List AggAlert) (m : MatchIn) :
    countKey (aggregateOne reopen st m) m.key =
      if countKey st m.key = 0 then 1 else countKey st m.key := by
  unfold aggregateOne
  by_cases hany : st.any (fun a => a.key = m.key) = true
  · rw [if_pos hany]
    rw [countKey_map_of_keys _ st m.key (fun a _ => by split_ifs <;> rfl)]
    have hnz : countKey st m.key ≠ 0 := by
      intro hz
      have hfalse := (countKey_eq_zero_iff st m.key).mp hz
      rw [hfalse] at hany
      exact Bool.noConfusion hany
    rw [if_neg hnz]
  · rw [if_neg hany]
    have hz : countKey st m.key = 0 :=
      (countKey_eq_zero_iff st m.key).mpr (by simpa using hany)
    have happ : countKey
        (st ++ [{ key := m.key, first_seen := m.event_time,
                  last_seen := m.event_time, severity := m.severity,
                  status := .opened }]) m.key = countKey st m.key + 1 := by
      simp [countKey, List.filter_append]
    rw [happ, hz, if_pos rfl]

theorem keys_map_extend (reopen : Bool) (st : List AggAlert) (m : MatchIn) :
    (st.map (fun a => if a.key = m.key then extendAlert reopen a m else a)).map
        AggAlert.key = st.map AggAlert.key := by
  induction st with
  | nil => rfl
  | cons a t ih =>
      simp only [List.map_cons, ih]
      congr 1
      split_ifs <;> rfl

theorem keysNodup_aggregateOne (reopen : Bool) (st : List AggAlert) (m : MatchIn)
    (h : keysNodup st) : keysNodup (aggregateOne reopen st m) := by
  unfold keysNodup at *
  unfold aggregateOne
  split_ifs with hany
  · rw [keys_map_extend]
    exact h
  · rw [List.map_append]
    rw [List.nodup_append]
    refine ⟨h, List.nodup_singleton _, ?_⟩
    intro x hx hx2
    rcases List.mem_map.mp hx with ⟨a, ha, hk⟩
    have hxk : x = m.key := by
      rcases List.mem_map.mp hx2 with ⟨b, hb, hbk⟩
      rw [List.mem_singleton.mp hb] at hbk
      rw [← hbk]
    have : st.any (fun a => a.key = m.key) = true :=
      List.any_eq_true.mpr ⟨a, ha, decide_eq_true (by rw [hk, hxk])⟩
    exact hany this

theorem keysNodup_aggregate (reopen : Bool) (ms : List MatchIn)
    (st : List AggAlert) (h : keysNodup st) :
    keysNodup (aggregate reopen st ms) := by
  induction ms generalizing st with
  | nil => exact h
  | cons m t ih =>
      rw [aggregate_cons]
      exact ih _ (keysNodup_aggregateOne reopen st m h)

theorem countKey_aggregate_of_one (reopen : Bool) (ms : List MatchIn)
    (st : List AggAlert) (k : DedupKey) (h1 : countKey st k = 1)
    (hk : ∀ m ∈ ms, m.key = k) :
    countKey (aggregate reopen st ms) k = 1 := by
  induction ms generalizing st with
  | nil => exact h1
  | cons m t ih =>
      rw [aggregate_cons]
      refine ih (aggregateOne reopen st m) ?_
        (fun x hx => hk x (List.mem_cons_of_mem m hx))
      have hm : m.key = k := hk m (List.mem_cons_self m t)
      have hc := countKey_aggregateOne reopen st m
      rw [hm, h1] at hc
      simpa using hc

/-- Claim C1 (engine modelled from the spec, §4.4): starting from a state
whose open alerts carry pairwise distinct dedup keys, the Aggregator keeps
the keys pairwise distinct — at most one alert per (rule, host, dedup-key)
triple — and a non-empty burst of N matches all carrying one fresh dedup
key leaves exactly 1 alert row for that key, not N: the first match
creates the row and every later one extends it. -/
theorem open_alert_dedup_unique (reopen : Bool) (st : List AggAlert)
    (k : DedupKey) (ms : List MatchIn) (hnd : keysNodup st)
    (h0 : countKey st k = 0) (hne : ms ≠ []) (hk : ∀ m ∈ ms, m.key = k) :
    keysNodup (aggregate reopen st ms) ∧
    countKey (aggregate reopen st ms) k = 1 := by
  refine ⟨keysNodup_aggregate reopen ms st hnd, ?_⟩
  cases ms with
  | nil => exact absurd rfl hne
  | cons m t =>
      rw [aggregate_cons]
      refine countKey_aggregate_of_one reopen t (aggregateOne reopen st m) k ?_
        (fun x hx => hk x (List.mem_cons_of_mem m hx))
      have hm : m.key = k := hk m (List.mem_cons_self m t)
      have hc := countKey_aggregateOne reopen st m
      rw [hm, h0] at hc
      simpa using hc

/-- Witness for C1: two matches with the same key on the empty state
produce one alert row with that key. -/
theorem open_alert_dedup_unique_witness :
    keysNodup (aggregate true [] [matchM, matchM2]) ∧
    countKey (aggregate true [] [matchM, matchM2]) ⟨1, 1, 0⟩ = 1 :=
  open_alert_dedup_unique true [] ⟨1, 1, 0⟩ [matchM, matchM2]
    (by simp [keysNodup]) (by rfl) (by simp) (by decide)

end Sentinel
